import Mathlib

set_option maxHeartbeats 1000000

/-!
# Verification of `match_filter.py`

A shallow embedding of the MARCXML match-filter program:
identifier extraction (`discover_scns`), record parsing
(`parse_marcxml`), set-difference matching (`diff_index_records`),
audit export (`save_unmatched_records`), backup and destructive
removal (`create_backup` / `remove_unmatched`), and the `process`
driver, together with theorems about the spec's claims.
-/

namespace MatchFilter

/-- Python `str.strip()` applied to an identifier value, as in
`val.strip() in index` inside `diff_index_records`: whitespace removed
from both ends. -/
def pyStrip (s : String) : String :=
  ((s.data.dropWhile Char.isWhitespace).reverse.dropWhile
    Char.isWhitespace).reverse.asString

/-- Helper for `dict.fromkeys` de-duplication: drop any element already
seen, keeping the first occurrence of each key. -/
def uniqFirstAux (seen : List String) : List String → List String
  | [] => []
  | x :: xs => if x ∈ seen then uniqFirstAux seen xs else x :: uniqFirstAux (x :: seen) xs

/-- `list(dict.fromkeys(xs))`: de-duplication preserving first occurrences. -/
def uniqFirst (l : List String) : List String := uniqFirstAux [] l

/-- The matched-key accumulator of `diff_index_records`: for every
(key, value) pair of the parsed collection, the key is recorded when the
stripped value is a member of the index; the accumulator is then
de-duplicated (`matching_whitelist_uniq`). -/
def matchedKeys (index : List String) (coll : List (String × String)) : List String :=
  uniqFirst (coll.filterMap (fun p => if pyStrip p.2 ∈ index then some p.1 else none))

/-- `set([str(*d.keys()) for d in scn_collection])`, rendered as an ordered
list of the distinct keys.  Python's set iteration order is unspecified;
every property proved below is membership-based, so the concrete order
fixed here (first occurrence) is immaterial. -/
def distinctKeys (coll : List (String × String)) : List String :=
  uniqFirst (coll.map Prod.fst)

/-- `diff_index_records(index, scn_collection)`: the distinct collection
keys minus the matched keys (the unmatched record ids). -/
def diff_index_records (index : List String) (coll : List (String × String)) : List String :=
  (distinctKeys coll).filter (fun k => decide (k ∉ matchedKeys index coll))

theorem mem_uniqFirstAux {a : String} :
    ∀ {l seen : List String}, a ∈ uniqFirstAux seen l ↔ a ∈ l ∧ a ∉ seen := by
  intro l
  induction l with
  | nil => intro seen; simp [uniqFirstAux]
  | cons x xs ih =>
    intro seen
    by_cases hx : x ∈ seen
    · rw [uniqFirstAux, if_pos hx, ih, List.mem_cons]
      constructor
      · rintro ⟨h1, h2⟩; exact ⟨Or.inr h1, h2⟩
      · rintro ⟨h1 | h1, h2⟩
        · exact absurd (h1 ▸ hx) h2
        · exact ⟨h1, h2⟩
    · rw [uniqFirstAux, if_neg hx]
      simp only [List.mem_cons, ih]
      constructor
      · rintro (rfl | ⟨h1, h2⟩)
        · exact ⟨Or.inl rfl, hx⟩
        · exact ⟨Or.inr h1, fun hs => h2 (Or.inr hs)⟩
      · rintro ⟨rfl | h1, h2⟩
        · exact Or.inl rfl
        · by_cases hax : a = x
          · exact Or.inl hax
          · exact Or.inr ⟨h1, fun hs => hs.elim hax h2⟩

theorem mem_uniqFirst {a : String} {l : List String} : a ∈ uniqFirst l ↔ a ∈ l := by
  simp [uniqFirst, mem_uniqFirstAux]

theorem matchedKeys_subset {index : List String} {coll : List (String × String)}
    {k : String} (h : k ∈ matchedKeys index coll) : k ∈ coll.map Prod.fst := by
  rw [matchedKeys, mem_uniqFirst] at h
  rcases List.mem_filterMap.mp h with ⟨p, hp, hpk⟩
  by_cases hm : pyStrip p.2 ∈ index
  · rw [if_pos hm] at hpk
    cases hpk
    exact List.mem_map.mpr ⟨p, hp, rfl⟩
  · rw [if_neg hm] at hpk; cases hpk

/-- C1: for every reference index and parsed collection, the matched keys
united with the unmatched keys returned by `diff_index_records` are exactly
the distinct keys appearing in the collection, and the two sets are
disjoint. -/
theorem C1_match_partition (index : List String) (coll : List (String × String)) (k : String) :
    ((k ∈ matchedKeys index coll ∨ k ∈ diff_index_records index coll) ↔
      k ∈ coll.map Prod.fst)
    ∧ ¬ (k ∈ matchedKeys index coll ∧ k ∈ diff_index_records index coll) := by
  constructor
  · constructor
    · rintro (h | h)
      · exact matchedKeys_subset h
      · rw [diff_index_records] at h
        rcases List.mem_filter.mp h with ⟨h1, _⟩
        rw [distinctKeys, mem_uniqFirst] at h1
        exact h1
    · intro h
      by_cases hm : k ∈ matchedKeys index coll
      · exact Or.inl hm
      · refine Or.inr ?_
        rw [diff_index_records]
        refine List.mem_filter.mpr ⟨?_, ?_⟩
        · rw [distinctKeys, mem_uniqFirst]
          exact h
        · simpa using hm
  · rintro ⟨hm, hd⟩
    rw [diff_index_records] at hd
    rcases List.mem_filter.mp hd with ⟨_, h2⟩
    have h3 : k ∉ matchedKeys index coll := by simpa using h2
    exact h3 hm

/-- C1 witness: the partition law on a concrete index and one-pair
collection. -/
theorem C1_match_partition_witness :
    (("r1" ∈ matchedKeys ["111"] [("r1", "111")] ∨
      "r1" ∈ diff_index_records ["111"] [("r1", "111")]) ↔
      "r1" ∈ ([("r1", "111")] : List (String × String)).map Prod.fst)
    ∧ ¬ ("r1" ∈ matchedKeys ["111"] [("r1", "111")] ∧
        "r1" ∈ diff_index_records ["111"] [("r1", "111")]) :=
  C1_match_partition ["111"] [("r1", "111")] "r1"

/-!
## Identifier extractor

`discover_scns` applies `re.search` with the pattern
`[\s_]?(\d{8,16}X?)(_v\d)?` to each input string and keeps group 1 of the
first match, skipping inputs with no match.  Group 1 is `\d{8,16}X?`: the
optional one-character prefix class and the optional `_v<digit>` suffix are
outside the group, so the captured value is fully determined by the
leftmost run of at least 8 consecutive digits (the two optional
sub-patterns can always match the empty string, so no backtracking on the
greedy digit quantifier is ever needed, and an optional prefix character
never changes which digits are captured). -/

/-- The attempt of the digit-group match anchored at the head of `cs`:
when at least 8 consecutive digits start here, capture up to 16 of them
greedily, plus the immediately following literal `X` when present. -/
def scnFrom (cs : List Char) : Option (List Char) :=
  let run := cs.takeWhile Char.isDigit
  if run.length < 8 then none
  else
    let taken := run.take 16
    if (cs.drop taken.length).head? = some 'X' then some (taken ++ ['X'])
    else some taken

/-- `re.search` semantics for the pattern: the leftmost position that
admits a match determines the captured group. -/
def reSearchSCN : List Char → Option (List Char)
  | [] => none
  | c :: cs =>
    match scnFrom (c :: cs) with
    | some g => some g
    | none => reSearchSCN cs

/-- `discover_scns(discoverable)`: one captured identifier per input
string that matches the pattern, in input order; non-matching inputs are
silently skipped. -/
def discover_scns (discoverable : List String) : List String :=
  discoverable.filterMap (fun fname => (reSearchSCN fname.data).map List.asString)

theorem mem_takeWhile_isDigit {p : Char → Bool} {c : Char} :
    ∀ {cs : List Char}, c ∈ cs.takeWhile p → p c = true := by
  intro cs
  induction cs with
  | nil => intro h; cases h
  | cons x xs ih =>
    intro h
    by_cases hx : p x = true
    · rw [List.takeWhile_cons, if_pos hx] at h
      rcases List.mem_cons.mp h with rfl | h
      · exact hx
      · exact ih h
    · rw [List.takeWhile_cons, if_neg hx] at h
      cases h

theorem scnFrom_shape {cs g : List Char} (h : scnFrom cs = some g) :
    ∃ ds suf, g = ds ++ suf ∧ 8 ≤ ds.length ∧ ds.length ≤ 16 ∧
      (∀ c ∈ ds, c.isDigit = true) ∧ (suf = [] ∨ suf = ['X']) := by
  unfold scnFrom at h
  by_cases hlen : (cs.takeWhile Char.isDigit).length < 8
  · rw [if_pos hlen] at h; cases h
  · rw [if_neg hlen] at h
    have hlen8 : 8 ≤ (cs.takeWhile Char.isDigit).length := Nat.le_of_not_lt hlen
    have htk : ((cs.takeWhile Char.isDigit).take 16).length =
        min 16 (cs.takeWhile Char.isDigit).length := List.length_take _ _
    have h8 : 8 ≤ ((cs.takeWhile Char.isDigit).take 16).length := by omega
    have h16 : ((cs.takeWhile Char.isDigit).take 16).length ≤ 16 := by omega
    have hdig : ∀ c ∈ (cs.takeWhile Char.isDigit).take 16, c.isDigit = true :=
      fun c hc => mem_takeWhile_isDigit (List.take_subset _ _ hc)
    by_cases hx : (cs.drop ((cs.takeWhile Char.isDigit).take 16).length).head? = some 'X'
    · rw [if_pos hx] at h
      injection h with h
      exact ⟨_, ['X'], h.symm, h8, h16, hdig, Or.inr rfl⟩
    · rw [if_neg hx] at h
      injection h with h
      exact ⟨_, [], by rw [← h, List.append_nil], h8, h16, hdig, Or.inl rfl⟩

theorem reSearchSCN_shape {g : List Char} :
    ∀ {cs : List Char}, reSearchSCN cs = some g →
      ∃ ds suf, g = ds ++ suf ∧ 8 ≤ ds.length ∧ ds.length ≤ 16 ∧
        (∀ c ∈ ds, c.isDigit = true) ∧ (suf = [] ∨ suf = ['X']) := by
  intro cs
  induction cs with
  | nil => intro h; cases h
  | cons c cs ih =>
    intro h
    rw [reSearchSCN] at h
    cases hs : scnFrom (c :: cs) with
    | some g0 =>
      rw [hs] at h
      injection h with h
      exact h ▸ scnFrom_shape hs
    | none =>
      rw [hs] at h
      exact ih h

/-- C6: `discover_scns` yields one identifier per matching input, in
input order, skipping non-matching inputs; each identifier is an
8-to-16-digit run optionally followed by a single uppercase letter, with
the `_v<digit>` version suffix matched but excluded from the output; in
particular `"9780000012345_v2.epub"` yields `"9780000012345"` and
`"cover.jpg"` yields nothing. -/
theorem C6_discover_scns_extraction :
    discover_scns ["9780000012345_v2.epub"] = ["9780000012345"]
    ∧ discover_scns ["cover.jpg"] = []
    ∧ (∀ (x : String) (l : List String),
        discover_scns (x :: l) =
          match reSearchSCN x.data with
          | some g => g.asString :: discover_scns l
          | none => discover_scns l)
    ∧ (∀ cs g : List Char, reSearchSCN cs = some g →
        ∃ ds suf, g = ds ++ suf ∧ 8 ≤ ds.length ∧ ds.length ≤ 16 ∧
          (∀ c ∈ ds, c.isDigit = true) ∧
          (suf = [] ∨ (suf = ['X'] ∧ Char.isUpper 'X' = true))) := by
  refine ⟨by decide, by decide, ?_, ?_⟩
  · intro x l
    cases h : reSearchSCN x.data with
    | some g => simp [discover_scns, List.filterMap_cons, h]
    | none => simp [discover_scns, List.filterMap_cons, h]
  · intro cs g h
    rcases reSearchSCN_shape h with ⟨ds, suf, hg, h8, h16, hdig, hsuf⟩
    refine ⟨ds, suf, hg, h8, h16, hdig, ?_⟩
    rcases hsuf with h | h
    · exact Or.inl h
    · exact Or.inr ⟨h, by decide⟩

/-- C6 witness: the general shape clause instantiated on the concrete
input `"9780000012345_v2.epub"`. -/
theorem C6_discover_scns_extraction_witness :
    ∃ ds suf, ("9780000012345".data : List Char) = ds ++ suf ∧
      8 ≤ ds.length ∧ ds.length ≤ 16 ∧ (∀ c ∈ ds, c.isDigit = true) ∧
      (suf = [] ∨ (suf = ['X'] ∧ Char.isUpper 'X' = true)) :=
  C6_discover_scns_extraction.2.2.2 "9780000012345_v2.epub".data
    "9780000012345".data (by decide)

/-!
## Record parser

The parsed tree is modelled structurally: a `marc:subfield` is a `code`
attribute plus text, a `marc:datafield` is a `tag` attribute plus its
subfield children, a `marc:record` is its controlfields (tag, text) plus
its datafields.  `parse_marcxml` walks every datafield of the document in
order; evaluation of `tag.attrs['tag'] == '028' and
tag.find('marc:subfield').attrs['code'] == 'a'` short-circuits, so
`find('marc:subfield')` is only dereferenced on datafields whose tag is
`028` — when such a datafield has no subfield child, or when the 028 test
succeeds and the owning record has no tag-001 controlfield, the `None`
returned by `find` is dereferenced and an `AttributeError` propagates;
this is modelled with `Except String`. -/

structure Subfield where
  code : String
  text : String
deriving DecidableEq, Repr

structure Datafield where
  tag : String
  subfields : List Subfield
deriving DecidableEq, Repr

structure MarcRecord where
  controlfields : List (String × String)
  datafields : List Datafield
deriving DecidableEq, Repr

/-- `tag.text` of a datafield in BeautifulSoup: the concatenation of its
descendant strings, i.e. of its subfields' texts. -/
def Datafield.fulltext (d : Datafield) : String :=
  d.subfields.foldl (fun acc sf => acc ++ sf.text) ""

/-- `record.find('marc:controlfield', {"tag": "001"})`: the first tag-001
controlfield's text, when any exists. -/
def MarcRecord.key001 (r : MarcRecord) : Option String :=
  (r.controlfields.find? (fun cf => cf.1 == "001")).map Prod.snd

/-- The guard on line 75 of the source, with Python's short-circuit
evaluation: `tag.attrs['tag'] == '028' and
tag.find('marc:subfield').attrs['code'] == 'a'`.  A 028 datafield with no
subfield child raises `AttributeError` (`None.attrs`). -/
def qualifies028a (d : Datafield) : Except String Bool :=
  if d.tag == "028" then
    match d.subfields.head? with
    | none => .error "AttributeError"
    | some sf => .ok (sf.code == "a")
  else .ok false

/-- One iteration of the datafield loop of `parse_marcxml` for a
datafield `d` owned by record `r`: when `d` qualifies, the pair (owning
record's 001 text, datafield text) is appended to the accumulator.  A
qualifying datafield in a record with no 001 controlfield raises
`AttributeError` (`None.text`). -/
def parseStep (r : MarcRecord) (acc : List (String × String)) (d : Datafield) :
    Except String (List (String × String)) :=
  match qualifies028a d with
  | .error e => .error e
  | .ok true =>
    match r.key001 with
    | none => .error "AttributeError"
    | some k => .ok (acc ++ [(k, d.fulltext)])
  | .ok false => .ok acc

/-- The contribution of one record's datafields to `scn_collection`. -/
def parseRecord (r : MarcRecord) : Except String (List (String × String)) :=
  r.datafields.foldlM (parseStep r) []

/-- `parse_marcxml`'s `scn_collection`: the datafields of the whole
document are visited in document order, i.e. record by record. -/
def parse_marcxml (rs : List MarcRecord) : Except String (List (String × String)) :=
  rs.foldlM (fun acc r =>
    match parseRecord r with
    | .error e => .error e
    | .ok ps => .ok (acc ++ ps)) []

/-!
## Top-level-node normalization

In `parse_marcxml` (lines 65-68), `check_extra = marcxml_soup.contents;
if len(check_extra) > 1: check_extra[1].extract()` removes the element at
index 1 of the top-level contents — exactly one node — whenever more than
one top-level node is present. -/

/-- A top-level node of the parse: the collection element or a spurious
parser artifact such as an extra processing-instruction node. -/
inductive TopNode where
  | element (records : List MarcRecord)
  | artifact (text : String)
deriving DecidableEq, Repr

/-- The top-level cleanup of `parse_marcxml`: when the parse produced more
than one top-level node, the node at index 1 is extracted from the tree;
otherwise the contents are untouched. -/
def normalizeContents : List TopNode → List TopNode
  | a :: _ :: rest => a :: rest
  | l => l

/-- C10: `parse_marcxml` is not total — a 028 datafield with no subfield
child, and a qualifying 028 datafield whose owning record has no tag-001
controlfield, both make the parse dereference a `None` and raise an
uncaught `AttributeError` instead of skipping the record. -/
theorem C10_parse_attribute_error :
    parse_marcxml [⟨[("001", "keyA")], [⟨"028", []⟩]⟩] = .error "AttributeError"
    ∧ parse_marcxml [⟨[("003", "x")], [⟨"028", [⟨"a", "111"⟩]⟩]⟩] =
        .error "AttributeError" := by
  constructor <;> rfl

/-!
## Audit export and destructive removal

`save_unmatched_records` looks each unmatched id up with
`soup.find('marc:controlfield', string=u).parent` (no tag filter) inside a
`try/except AttributeError`: a failed lookup is skipped with a warning and
the loop continues.  `remove_unmatched` looks each id up with
`soup.find('marc:controlfield', {"tag": "001"}, string=unmatch)` and
decomposes the parent record; its `except AttributeError` handler,
however, is written `click.echo("...").format(unmatch)` — `.format` is
applied to `click.echo`'s return value `None`, so the handler itself
raises a fresh, uncaught `AttributeError`. -/

/-- `soup.find('marc:controlfield', string=u).parent`: the first record
owning any controlfield whose text equals `u`. -/
def findRecordByCFText (rs : List MarcRecord) (u : String) : Option MarcRecord :=
  rs.find? (fun r => r.controlfields.any (fun cf => cf.2 == u))

/-- The record-collection loop of `save_unmatched_records` (lines
101-106): each unmatched id whose record is found contributes that record
to the audit document; a failed lookup is caught, a warning echoed, and
the loop continues with the remaining ids. -/
def collectUnmatched (rs : List MarcRecord) (ids : List String) : List MarcRecord :=
  ids.filterMap (findRecordByCFText rs)

/-- Removal of one unmatched id in `remove_unmatched`: the first record
owning a tag-001 controlfield with text `u` is decomposed.  When none
exists, the `except` handler's own `None.format` call raises an uncaught
`AttributeError`. -/
def removeFirst001 : List MarcRecord → String → Except String (List MarcRecord)
  | [], _ => .error "AttributeError"
  | r :: rs, u =>
    if r.controlfields.any (fun cf => cf.1 == "001" && cf.2 == u) then .ok rs
    else
      match removeFirst001 rs u with
      | .error e => .error e
      | .ok rest => .ok (r :: rest)

/-- `remove_unmatched` (lines 133-148): remove each unmatched id's record
in turn; only after all removals is the tree serialized back over the
source file, so an uncaught error aborts the run before the rewrite. -/
def remove_unmatched (ids : List String) (rs : List MarcRecord) :
    Except String (List MarcRecord) :=
  ids.foldlM (fun acc u => removeFirst001 acc u) rs

/-- C4: at the failing input — an unmatched id with no corresponding
record in the tree — the export loop skips the id and continues with the
remaining keys, but the removal loop's warning line
(`click.echo("...").format(unmatch)`, `.format` on `None`) raises an
uncaught `AttributeError`, so removal is fatal rather than non-fatal. -/
theorem C4_lookup_failure_divergence :
    collectUnmatched [⟨[("001", "r2")], []⟩] ["zzz", "r2"] = [⟨[("001", "r2")], []⟩]
    ∧ remove_unmatched ["zzz"] [⟨[("001", "r2")], []⟩] = .error "AttributeError" := by
  constructor <;> rfl

/-- C7 counterexample: with three top-level nodes the cleanup removes only
the node at index 1; two nodes remain, refuting "exactly one top-level
node regardless of how many extra nodes the parser emitted". -/
theorem C7_normalize_counterexample :
    normalizeContents [.element [], .artifact "pi1", .artifact "pi2"] =
      [.element [], .artifact "pi2"]
    ∧ (normalizeContents [.element [], .artifact "pi1", .artifact "pi2"]).length ≠ 1 := by
  constructor <;> decide

/-- C7 (amended): when parsing yields more than one top-level node,
exactly one node — the one at index 1 — is discarded, so a parse with
`n > 1` top-level nodes is left with `n - 1` of them (exactly one remains
only when the parse yielded at most two); with one node or none the
contents are untouched. -/
theorem C7_normalize_drops_second :
    (∀ (a b : TopNode) (rest : List TopNode),
      normalizeContents (a :: b :: rest) = a :: rest)
    ∧ (∀ l : List TopNode, l.length ≤ 1 → normalizeContents l = l) := by
  constructor
  · intro a b rest
    rfl
  · intro l hl
    match l with
    | [] => rfl
    | [_] => rfl
    | _ :: _ :: _ => simp at hl

/-- C7 witness: the amended statement applied to a concrete two-artifact
parse and to a singleton parse. -/
theorem C7_normalize_drops_second_witness :
    normalizeContents [.element [], .artifact "x", .artifact "y"] =
      [.element [], .artifact "y"]
    ∧ normalizeContents [.element []] = [.element []] :=
  ⟨C7_normalize_drops_second.1 (.element []) (.artifact "x") [.artifact "y"],
   C7_normalize_drops_second.2 [.element []] (by decide)⟩

theorem except_ok_bind {α β ε : Type} (a : α) (f : α → Except ε β) :
    ((Except.ok a : Except ε α) >>= f) = f a := rfl

theorem foldlM_parseStep_skip (r : MarcRecord) :
    ∀ (l : List Datafield) (acc : List (String × String)),
      (∀ d ∈ l, qualifies028a d = .ok false) →
      l.foldlM (parseStep r) acc = .ok acc := by
  intro l
  induction l with
  | nil => intro acc _; rfl
  | cons d ds ih =>
    intro acc h
    have hd : qualifies028a d = .ok false := h d (List.mem_cons_self d ds)
    have hstep : parseStep r acc d = .ok acc := by
      unfold parseStep
      rw [hd]
    rw [List.foldlM_cons, hstep, except_ok_bind]
    exact ih acc (fun e he => h e (List.mem_cons_of_mem _ he))

/-- C5 counterexample: a record carrying zero qualifying identifier
fields (here: no datafields at all) contributes no entry to
`scn_collection`; its key `"r1"` is absent from the unmatched set returned
by `diff_index_records`, it is not collected for export, and removal
leaves it in place — refuting "classified as unmatched ... exported ...
and removed". -/
theorem C5_zero_field_counterexample :
    parse_marcxml [⟨[("001", "r1")], []⟩] = .ok []
    ∧ diff_index_records ["111"] [] = []
    ∧ "r1" ∉ diff_index_records ["111"] []
    ∧ collectUnmatched [⟨[("001", "r1")], []⟩] (diff_index_records ["111"] []) = []
    ∧ remove_unmatched (diff_index_records ["111"] []) [⟨[("001", "r1")], []⟩] =
        .ok [⟨[("001", "r1")], []⟩] := by
  refine ⟨rfl, rfl, ?_, rfl, rfl⟩
  decide

/-- C5 (amended): a record all of whose datafields fail the 028/subfield-a
guard contributes no pair to `scn_collection`; and a key contributed by no
pair of the parsed collection is classified neither matched nor unmatched
by `diff_index_records` — so such a record is never exported to the audit
file and never removed from the collection. -/
theorem C5_zero_field_record_invisible :
    (∀ r : MarcRecord, (∀ d ∈ r.datafields, qualifies028a d = .ok false) →
      parseRecord r = .ok [])
    ∧ (∀ (index : List String) (coll : List (String × String)) (k : String),
        (∀ p ∈ coll, p.1 ≠ k) →
        k ∉ matchedKeys index coll ∧ k ∉ diff_index_records index coll) := by
  constructor
  · intro r h
    exact foldlM_parseStep_skip r r.datafields [] h
  · intro index coll k h
    have hk : k ∉ coll.map Prod.fst := by
      intro hm
      rcases List.mem_map.mp hm with ⟨p, hp, hpk⟩
      exact h p hp hpk
    constructor
    · intro hm
      exact hk (matchedKeys_subset hm)
    · intro hd
      rw [diff_index_records] at hd
      rcases List.mem_filter.mp hd with ⟨h1, _⟩
      rw [distinctKeys, mem_uniqFirst] at h1
      exact hk h1

/-- C5 witness: the amended statement applied to the concrete
zero-qualifying-field record and to the key `"r1"` over the empty parsed
collection. -/
theorem C5_zero_field_record_invisible_witness :
    parseRecord ⟨[("001", "r1")], []⟩ = .ok []
    ∧ ("r1" ∉ matchedKeys ["111"] [] ∧ "r1" ∉ diff_index_records ["111"] []) :=
  ⟨C5_zero_field_record_invisible.1 ⟨[("001", "r1")], []⟩ (by simp),
   C5_zero_field_record_invisible.2 ["111"] [] "r1" (by simp)⟩

/-!
## The `process` driver

`process` builds the index and the parsed collection, computes the
unmatched ids, and exits immediately when there are none.  (The test
`len(unmatched_record_ids) is not 0` is an identity comparison, but
CPython interns small integers and `len` of an empty list returns the
interned `0`, so it behaves exactly like `!= 0`.)  Otherwise it writes
the audit file, snapshots the source with `cp <name> <name>.backup`
(`create_backup` returns `True` only when the shell command exits with
status 0, and `None` — falsy — otherwise), and only on success calls
`remove_unmatched`, which rewrites the source file after all removals
complete.  File effects are modelled by the fields of `RunResult`;
`backupCmdOk` stands for the exit status of the `cp` command. -/

/-- The observable file effects of one run of `process`. -/
structure RunResult where
  /-- Content of the source file when the run ends. -/
  fileRecords : List MarcRecord
  /-- Content of `<source>.backup` when the backup was created. -/
  backup : Option (List MarcRecord)
  /-- Record list written to the audit file, when it was written. -/
  audit : Option (List MarcRecord)
  /-- Whether `remove_unmatched` was invoked. -/
  removeInvoked : Bool
  /-- `some e` when the run aborts with an uncaught exception `e`. -/
  uncaught : Option String
deriving DecidableEq, Repr

/-- The backup destination derived by `create_backup`:
`"cp {} {}.backup".format(name, name)`. -/
def backupPath (name : String) : String := name ++ ".backup"

/-- The `process` driver (lines 16-41). -/
def process (index : List String) (rs : List MarcRecord) (backupCmdOk : Bool) :
    RunResult :=
  match parse_marcxml rs with
  | .error e => ⟨rs, none, none, false, some e⟩
  | .ok coll =>
    if (diff_index_records index coll).isEmpty then
      ⟨rs, none, none, false, none⟩
    else
      let auditRecs := collectUnmatched rs (diff_index_records index coll)
      if backupCmdOk then
        match remove_unmatched (diff_index_records index coll) rs with
        | .error e => ⟨rs, some rs, some auditRecs, true, some e⟩
        | .ok rs2 => ⟨rs2, some rs, some auditRecs, true, none⟩
      else
        ⟨rs, none, some auditRecs, false, none⟩

/-- C2: in a run with a non-empty unmatched set, whenever
`remove_unmatched` is invoked the backup already holds a byte-identical
copy of the pre-run source; and when the backup command fails
(`create_backup` does not report success), `remove_unmatched` is never
invoked, no backup exists and the source file is left unchanged. -/
theorem C2_backup_gates_mutation (index : List String) (rs : List MarcRecord)
    (coll : List (String × String)) (bk : Bool)
    (hp : parse_marcxml rs = .ok coll)
    (hne : diff_index_records index coll ≠ []) :
    ((process index rs bk).removeInvoked = true →
      (process index rs bk).backup = some rs)
    ∧ (bk = false →
        (process index rs bk).removeInvoked = false
        ∧ (process index rs bk).fileRecords = rs
        ∧ (process index rs bk).backup = none) := by
  have hempty : (diff_index_records index coll).isEmpty = false := by
    rcases hd : diff_index_records index coll with _ | ⟨a, l⟩
    · exact absurd hd hne
    · rfl
  cases bk with
  | false =>
    refine ⟨?_, ?_⟩
    · intro hinv
      simp [process, hp, hempty] at hinv
    · intro _
      refine ⟨?_, ?_, ?_⟩ <;> simp [process, hp, hempty]
  | true =>
    refine ⟨?_, fun hbk => Bool.noConfusion hbk⟩
    intro _
    cases hrem : remove_unmatched (diff_index_records index coll) rs with
    | error e => simp [process, hp, hempty, hrem]
    | ok rs2 => simp [process, hp, hempty, hrem]

/-- A record carrying key r1 and embedded identifier 111. -/
def sampleR1 : MarcRecord := ⟨[("001", "r1")], [⟨"028", [⟨"a", "111"⟩]⟩]⟩

/-- A record carrying key r2 and embedded identifier 999. -/
def sampleR2 : MarcRecord := ⟨[("001", "r2")], [⟨"028", [⟨"a", "999"⟩]⟩]⟩

/-- C2 witness: the gating statement on a concrete two-record collection
whose second record is unmatched, with a failing backup command. -/
theorem C2_backup_gates_mutation_witness :
    ((process ["111"] [sampleR1, sampleR2] false).removeInvoked = true →
      (process ["111"] [sampleR1, sampleR2] false).backup =
        some [sampleR1, sampleR2])
    ∧ (false = false →
        (process ["111"] [sampleR1, sampleR2] false).removeInvoked = false
        ∧ (process ["111"] [sampleR1, sampleR2] false).fileRecords =
            [sampleR1, sampleR2]
        ∧ (process ["111"] [sampleR1, sampleR2] false).backup = none) :=
  C2_backup_gates_mutation ["111"] [sampleR1, sampleR2]
    [("r1", "111"), ("r2", "999")] false rfl (by decide)

/-- C3: when `diff_index_records` returns an empty unmatched set the run
terminates successfully before any file-producing step: no backup file,
no audit file, no removal, and the source document and its backing file
are untouched. -/
theorem C3_empty_unmatched_noop (index : List String) (rs : List MarcRecord)
    (coll : List (String × String)) (bk : Bool)
    (hp : parse_marcxml rs = .ok coll)
    (he : diff_index_records index coll = []) :
    process index rs bk = ⟨rs, none, none, false, none⟩ := by
  simp [process, hp, he]

/-- C3 witness: an index containing every embedded identifier of the
concrete two-record collection short-circuits the run. -/
theorem C3_empty_unmatched_noop_witness :
    process ["111", "999"] [sampleR1, sampleR2] true =
      ⟨[sampleR1, sampleR2], none, none, false, none⟩ :=
  C3_empty_unmatched_noop ["111", "999"] [sampleR1, sampleR2]
    [("r1", "111"), ("r2", "999")] true rfl (by decide)

/-!
## Audit file path

`save_unmatched_records` (lines 109-111) computes
`os.path.dirname(name) + "/" + "{}_unmatchable_{}".format(count,
os.path.split(name)[1] if os.path.dirname(name) is not '' else name)`.
(`is not ''` is an identity test, but CPython's empty string is an
interned singleton and `os.path.dirname` produces it by slicing, so the
test behaves as `!= ''`.)  POSIX `dirname`: everything up to one past the
last slash, with trailing slashes stripped unless the head is nothing but
slashes; `split(p)[1]`: everything after the last slash. -/

/-- `p.rfind('/') + 1`: one past the index of the last slash, 0 when the
path has no slash. -/
def lastSlashSucc : List Char → Nat
  | [] => 0
  | c :: cs =>
    let r := lastSlashSucc cs
    if r = 0 then (if c = '/' then 1 else 0) else r + 1

/-- `os.path.dirname` for POSIX paths. -/
def posixDirname (p : String) : String :=
  let head := p.data.take (lastSlashSucc p.data)
  if head = [] then ""
  else if head.all (fun c => c == '/') then head.asString
  else ((head.reverse.dropWhile (fun c => c == '/')).reverse).asString

/-- `os.path.split(p)[1]` for POSIX paths. -/
def posixSplitTail (p : String) : String :=
  (p.data.drop (lastSlashSucc p.data)).asString

/-- The audit file path of `save_unmatched_records`. -/
def unmatchedRecordsFile (count : Nat) (name : String) : String :=
  posixDirname name ++ "/" ++ toString count ++ "_unmatchable_" ++
    (if posixDirname name ≠ "" then posixSplitTail name else name)

/-- C8: the audit path is `<dir>/<count>_unmatchable_<basename>` for a
source path with a directory component, but for a bare filename
`os.path.dirname` is empty and the concatenation starts with `"" + "/"`,
yielding a root-absolute path (`/3_unmatchable_file.xml`) rather than a
file alongside the source. -/
theorem C8_audit_path_bare_filename :
    unmatchedRecordsFile 2 "data/file.xml" = "data/2_unmatchable_file.xml"
    ∧ unmatchedRecordsFile 3 "file.xml" = "/3_unmatchable_file.xml"
    ∧ unmatchedRecordsFile 3 "file.xml" ≠ "3_unmatchable_file.xml" := by
  refine ⟨?_, ?_, ?_⟩ <;> decide

/-!
## Re-running on the audit artifact -/

theorem mem_matchedKeys {index : List String} {coll : List (String × String)}
    {p : String × String} (hp : p ∈ coll) (hv : pyStrip p.2 ∈ index) :
    p.1 ∈ matchedKeys index coll := by
  rw [matchedKeys, mem_uniqFirst]
  exact List.mem_filterMap.mpr ⟨p, hp, by rw [if_pos hv]⟩

theorem not_matched_of_mem_diff {index : List String}
    {coll : List (String × String)} {k : String}
    (h : k ∈ diff_index_records index coll) : k ∉ matchedKeys index coll := by
  rw [diff_index_records] at h
  rcases List.mem_filter.mp h with ⟨_, h2⟩
  simpa using h2

/-- C9 counterexample: with index `["111"]`, run 1 on records r1, r2
leaves exactly r2 unmatched, and the audit artifact holds exactly the r2
record; re-running on that artifact with the same index classifies r2 as
unmatched again — one unmatched record, not zero. -/
theorem C9_rerun_counterexample :
    parse_marcxml [sampleR1, sampleR2] = .ok [("r1", "111"), ("r2", "999")]
    ∧ diff_index_records ["111"] [("r1", "111"), ("r2", "999")] = ["r2"]
    ∧ collectUnmatched [sampleR1, sampleR2] ["r2"] = [sampleR2]
    ∧ parse_marcxml [sampleR2] = .ok [("r2", "999")]
    ∧ diff_index_records ["111"] [("r2", "999")] = ["r2"]
    ∧ diff_index_records ["111"] [("r2", "999")] ≠ [] := by
  refine ⟨rfl, ?_, rfl, rfl, ?_, ?_⟩ <;> decide

/-- C9 (amended): re-running the matcher over the audit content (the
pairs of the collection whose key was unmatched) with the same index
reproduces the same classification: the second run matches zero records
and classifies every distinct key of the audit collection as unmatched
again — so the second run's unmatched set is empty only when the audit
itself is empty, not in general. -/
theorem C9_rerun_same_classification (index : List String)
    (coll : List (String × String)) :
    matchedKeys index
      (coll.filter (fun p => decide (p.1 ∈ diff_index_records index coll))) = []
    ∧ ∀ k : String,
        k ∈ diff_index_records index
          (coll.filter (fun p => decide (p.1 ∈ diff_index_records index coll)))
        ↔ k ∈ (coll.filter
            (fun p => decide (p.1 ∈ diff_index_records index coll))).map
            Prod.fst := by
  have hm : matchedKeys index
      (coll.filter (fun p => decide (p.1 ∈ diff_index_records index coll))) = [] := by
    rw [matchedKeys]
    have hnil : (coll.filter
        (fun p => decide (p.1 ∈ diff_index_records index coll))).filterMap
        (fun p => if pyStrip p.2 ∈ index then some p.1 else none) = [] := by
      rw [List.filterMap_eq_nil_iff]
      intro p hp
      rcases List.mem_filter.mp hp with ⟨hpc, hpd⟩
      have hpdiff : p.1 ∈ diff_index_records index coll := of_decide_eq_true hpd
      rw [if_neg]
      intro hv
      exact not_matched_of_mem_diff hpdiff (mem_matchedKeys hpc hv)
    rw [hnil]
    rfl
  refine ⟨hm, ?_⟩
  intro k
  constructor
  · intro h
    rw [diff_index_records] at h
    have h1 := (List.mem_filter.mp h).1
    rw [distinctKeys, mem_uniqFirst] at h1
    exact h1
  · intro h
    rw [diff_index_records]
    refine List.mem_filter.mpr ⟨?_, ?_⟩
    · rw [distinctKeys, mem_uniqFirst]
      exact h
    · rw [hm]
      simp

/-- C9 amended-claim witness: the same-classification statement applied
to the concrete run-1 collection and the key r2 of its audit content. -/
theorem C9_rerun_same_classification_witness :
    matchedKeys ["111"]
      (([("r1", "111"), ("r2", "999")] : List (String × String)).filter
        (fun p => decide (p.1 ∈
          diff_index_records ["111"] [("r1", "111"), ("r2", "999")]))) = []
    ∧ ("r2" ∈ diff_index_records ["111"]
        (([("r1", "111"), ("r2", "999")] : List (String × String)).filter
          (fun p => decide (p.1 ∈
            diff_index_records ["111"] [("r1", "111"), ("r2", "999")])))
      ↔ "r2" ∈ (([("r1", "111"), ("r2", "999")] : List (String × String)).filter
          (fun p => decide (p.1 ∈
            diff_index_records ["111"] [("r1", "111"), ("r2", "999")]))).map
          Prod.fst) :=
  ⟨(C9_rerun_same_classification ["111"] [("r1", "111"), ("r2", "999")]).1,
   (C9_rerun_same_classification ["111"] [("r1", "111"), ("r2", "999")]).2 "r2"⟩

end MatchFilter
